import Mathlib

/-!
# Project Aegis — shallow embedding of the drift-detection / auto-healing core

This file embeds the core logic of the Aegis engine (`src/engine.py`,
`AegisEngine`) and the streaming history loop of the dashboard (`app.py`,
Live Feed mode) as executable Lean definitions, and proves the spec's
claims about them.

Modelling conventions:
* A pandas DataFrame is a `Table`: a row count together with an ordered
  list of named, typed columns.  A numeric column holds `Option ℚ` cells
  (`none` = NaN/null); a text column holds `Option String` cells.
  Floating-point values are modelled as rationals.
* pandas reductions (`mean`, `std`, `median`) skip nulls; `std` uses the
  sample convention (ddof = 1).  A pandas comparison against NaN is
  `False`; in the rational model the corresponding guards are expressed so
  that the same branch is taken (divisions that would produce NaN in
  pandas become Lean's total division by zero, and the surrounding
  threshold comparisons are false in both semantics).
* Filesystem persistence (CSV output path/size) and wall-clock timestamps
  are outside the model; the healing log keeps the fields the claims are
  about.
-/

/-- Cell data of one column: numeric columns (pandas numeric dtype) hold
optional rationals, text columns hold optional strings; `none` is a
null/NaN cell. -/
inductive ColData where
  | numeric (cells : List (Option ℚ))
  | text (cells : List (Option String))
deriving DecidableEq, Repr

/-- A named column of a table. -/
structure Column where
  name : String
  data : ColData
deriving DecidableEq, Repr

/-- A table (pandas DataFrame): a row count `nrows` (`len(df)`) and an
ordered list of columns. -/
structure Table where
  nrows : ℕ
  cols : List Column
deriving DecidableEq, Repr

namespace ColData

/-- Number of cells of the column. -/
def length : ColData → ℕ
  | numeric cells => cells.length
  | text cells => cells.length

/-- `df[col].isnull().sum()`: number of null cells. -/
def nullCount : ColData → ℕ
  | numeric cells => cells.countP (·.isNone)
  | text cells => cells.countP (·.isNone)

/-- Null mask of the column: `true` at null positions. -/
def nullMask : ColData → List Bool
  | numeric cells => cells.map (·.isNone)
  | text cells => cells.map (·.isNone)

/-- `pd.api.types.is_numeric_dtype(df[col])`. -/
def isNumeric : ColData → Bool
  | numeric _ => true
  | text _ => false

end ColData

/-- Well-formedness of a table: every column has exactly `nrows` cells
(the DataFrame invariant). -/
def Table.WF (t : Table) : Prop :=
  ∀ c ∈ t.cols, c.data.length = t.nrows

instance (t : Table) : Decidable t.WF := by
  unfold Table.WF; infer_instance

/-- Null percentage of a column, `(df.isnull().sum() / len(df)) * 100`
(engine.py line 196).  For `len(df) = 0` pandas yields NaN and every
threshold comparison on it is `False`; Lean's `x / 0 = 0` makes the same
comparisons false, so the healing branches agree. -/
def nullPct (nrows : ℕ) (c : Column) : ℚ :=
  ((c.data.nullCount : ℚ) / (nrows : ℚ)) * 100

/-- `df[col].median()` on the non-null values: midpoint convention of
pandas (average of the two middle order statistics for even counts).
Empty input gives 0 (pandas gives NaN; unreachable in the healing band). -/
def median (l : List ℚ) : ℚ :=
  let s := l.mergeSort (· ≤ ·)
  let n := s.length
  if n = 0 then 0
  else if n % 2 = 1 then s.getD (n / 2) 0
  else (s.getD (n / 2 - 1) 0 + s.getD (n / 2) 0) / 2

namespace Column

/-- `df[col].fillna(df[col].median())` for a numeric column; text columns
are never imputed by the engine. -/
def fillMedian (c : Column) : Column :=
  match c.data with
  | .numeric cells =>
      let m := median (cells.filterMap id)
      ⟨c.name, .numeric (cells.map fun o => some (o.getD m))⟩
  | .text _ => c

end Column

/-- One imputation record of the healing log:
`{'column': col, 'method': 'median', 'value': v}`. -/
structure ImputeEntry where
  column : String
  method : String
  value : ℚ
deriving DecidableEq, Repr

/-- One flag record of the healing log:
`{'column': col, 'null_percentage': p}`. -/
structure FlagEntry where
  column : String
  nullPercentage : ℚ
deriving DecidableEq, Repr

/-- The healing log built by `AegisEngine.heal_data` (engine.py lines
171–249); `output_path`/`output_size` are filesystem artefacts outside
the model. -/
structure HealingLog where
  columnsDropped : List String
  columnsImputed : List ImputeEntry
  columnsFlagged : List FlagEntry
  rowsProcessed : ℕ
deriving DecidableEq, Repr

/-- `AegisEngine.heal_data` (engine.py lines 151–249): three-tier repair.
Null percentages are computed once from the input table; strategy 1 drops
columns with percentage > 50, strategy 2 imputes the median into numeric
columns with percentage in (0, 5), strategy 3 flags columns with
percentage in [5, 50].  Returns the cleaned table (the DataFrame the code
writes to CSV) and the healing log.  Column lookups in the code are by
name; the embedding works structurally on the column list, which matches
the code on tables with distinct column names. -/
def healData (t : Table) : Table × HealingLog :=
  let pct := nullPct t.nrows
  -- Strategy 1: drop columns with >50% nulls
  let dropped := t.cols.filter fun c => pct c > 50
  let kept := t.cols.filter fun c => ¬ pct c > 50
  -- Strategy 2: impute numeric columns with 0% < nulls < 5% (median);
  -- the code skips already-dropped columns, which cannot be in this band
  let keptHealed := kept.map fun c =>
    if 0 < pct c ∧ pct c < 5 ∧ c.data.isNumeric then c.fillMedian else c
  let imputedLog := kept.filterMap fun c =>
    if 0 < pct c ∧ pct c < 5 ∧ c.data.isNumeric then
      some ⟨c.name, "median", median (match c.data with
        | .numeric cells => cells.filterMap id
        | .text _ => [])⟩
    else none
  -- Strategy 3: flag columns with 5% ≤ nulls ≤ 50% (computed from the
  -- original null_percentages, as in the code; the drop band is disjoint)
  let flaggedLog := t.cols.filterMap fun c =>
    if 5 ≤ pct c ∧ pct c ≤ 50 then some (⟨c.name, pct c⟩ : FlagEntry)
    else none
  (⟨t.nrows, keptHealed⟩,
   ⟨dropped.map Column.name, imputedLog, flaggedLog, t.nrows⟩)

/-- `True` iff the column has at least one null cell
(`missing_counts > 0` per column). -/
def Column.hasNull (c : Column) : Bool :=
  c.data.nullCount > 0

/-- Drift score of a table (engine.py lines 66–68 and 101–103):
`(# columns with at least one missing value) / (total # columns)`, and
`0.0` when there are zero columns. -/
def driftScore (t : Table) : ℚ :=
  let columnsWithIssues := t.cols.countP Column.hasNull
  if t.cols.length > 0 then (columnsWithIssues : ℚ) / (t.cols.length : ℚ)
  else 0

/-- `missing_counts.sum()`: total number of null cells of the table. -/
def totalMissing (t : Table) : ℕ :=
  (t.cols.map fun c => c.data.nullCount).sum

/-- One record of the Missing-Value Analyzer
(`AegisEngine._analyze_missing_values`). -/
structure MissingCol where
  column : String
  count : ℕ
  percentage : ℚ
deriving DecidableEq, Repr

/-- `AegisEngine._analyze_missing_values` (engine.py lines 276–291):
per-column null counts and percentages, columns with no nulls omitted,
original column order. -/
def analyzeMissingValues (t : Table) :
    ℕ × List MissingCol :=
  (totalMissing t,
   t.cols.filterMap fun c =>
     if c.data.nullCount > 0 then
       some ⟨c.name, c.data.nullCount, nullPct t.nrows c⟩
     else none)

/-- The result of `AegisEngine.scan_for_drift` (engine.py lines 30–86),
restricted to the fields the spec's claims are about; `report` is an
empty placeholder in the code and file loading is outside the model. -/
structure ScanResult where
  driftScore : ℚ
  totalMissing : ℕ
  columnsWithMissing : List MissingCol
  numRows : ℕ
  numColumns : ℕ
  columns : List String
deriving DecidableEq, Repr

/-- `AegisEngine.scan_for_drift` on a loaded table. -/
def scanForDrift (t : Table) : ScanResult :=
  let stats := analyzeMissingValues t
  { driftScore := driftScore t
    totalMissing := stats.1
    columnsWithMissing := stats.2
    numRows := t.nrows
    numColumns := t.cols.length
    columns := t.cols.map Column.name }

/-- Sample mean of a list of rationals (pandas `mean` over the non-null
values; empty input would be NaN in pandas, 0 here — the callers guard). -/
def listMean (l : List ℚ) : ℚ :=
  l.sum / (l.length : ℚ)

/-- Sample variance with ddof = 1, i.e. the square of pandas
`df[col].std()`: `Σ (v − mean)² / (n − 1)`.  For n ≤ 1 pandas `std` is
NaN and the engine's `std > 0` guard is false; here the total division
makes the variance 0 and the guard `sampleVar > 0` is equally false. -/
def sampleVar (l : List ℚ) : ℚ :=
  let m := listMean l
  (l.map fun v => (v - m) ^ 2).sum / ((l.length : ℚ) - 1)

/-- Anomaly contribution of one numeric column (engine.py lines 109–115):
for a column with more than 1 row, when `std > 0`, count the cells whose
z-score `|x − mean| / std` exceeds 3.  Null cells have NaN z-score and
are never counted, so the count ranges over the non-null values; over the
rationals `|v − mean| / std > 3` with `std = √sampleVar` is expressed
equivalently as `(v − mean)² > 9 · sampleVar`. -/
def colAnomalies (nrows : ℕ) (cells : List (Option ℚ)) : ℕ :=
  if nrows > 1 then
    let vals := cells.filterMap id
    let m := listMean vals
    let var := sampleVar vals
    if var > 0 then vals.countP fun v => (v - m) ^ 2 > 9 * var
    else 0
  else 0

/-- Total anomaly count of a batch (engine.py lines 106–115): numeric
columns only; `len(batch_df[col])` equals the table's row count. -/
def anomalyCount (t : Table) : ℕ :=
  (t.cols.map fun c =>
    match c.data with
    | .numeric cells => colAnomalies t.nrows cells
    | .text _ => 0).sum

/-- The dictionary returned by `AegisEngine.scan_batch` (engine.py lines
124–133 and 139–149); the wall-clock `timestamp` field is outside the
model. -/
structure BatchResult where
  driftScore : ℚ
  anomalyCount : ℕ
  healthScore : ℚ
  hasDriftEvent : Bool
  batchSize : ℕ
  missingValues : ℕ
  alert : Bool
  error : Option String
deriving DecidableEq, Repr

/-- Happy path of `AegisEngine.scan_batch` (engine.py lines 99–135) as
fallible code: the only raising operation on a well-formed batch is
`anomaly_count / len(batch_df)` when the batch is empty (an empty batch
has no numeric column with more than one cell, so the accumulator is
still a Python `int` and the division raises `ZeroDivisionError`).
`has_drift` is the batch-level flag the producer stores in
`batch_df.attrs`, passed explicitly. -/
def scanBatchCore (t : Table) (hasDrift : Bool) :
    Except String BatchResult :=
  let ds := driftScore t
  let ac := anomalyCount t
  if t.nrows = 0 then .error "division by zero"
  else
    let health := 1 - (ds + ((ac : ℚ) / (t.nrows : ℚ)) * (1/2))
    let health := max 0 (min 1 health)
    .ok { driftScore := ds
          anomalyCount := ac
          healthScore := health
          hasDriftEvent := hasDrift
          batchSize := t.nrows
          missingValues := totalMissing t
          alert := hasDrift || ds > 3/10 || health < 7/10
          error := none }

/-- `AegisEngine.scan_batch` with its `except` clause (engine.py lines
137–149): any exception is converted to the neutral result with an
`error` field. -/
def scanBatch (t : Table) (hasDrift : Bool) : BatchResult :=
  match scanBatchCore t hasDrift with
  | .ok r => r
  | .error e =>
      { driftScore := 0
        anomalyCount := 0
        healthScore := 1
        hasDriftEvent := false
        batchSize := 0
        missingValues := 0
        alert := false
        error := some e }

/-- The alert rule of engine.py line 132 as a function of the three
inputs: `has_drift_event or drift_score > 0.3 or health_score < 0.7`. -/
def alertOf (hasDriftEvent : Bool) (ds health : ℚ) : Bool :=
  hasDriftEvent || ds > 3/10 || health < 7/10

/-- One entry of the dashboard's rolling stream history (app.py lines
253–259); the wall-clock timestamp is outside the model. -/
structure StreamEntry where
  batchNum : ℕ
  healthScore : ℚ
  driftScore : ℚ
  anomalyCount : ℕ
deriving DecidableEq, Repr

/-- Stream Controller state: `st.session_state.stream_history` and
`st.session_state.batch_count`. -/
structure StreamState where
  history : List StreamEntry
  batchCount : ℕ
deriving DecidableEq, Repr

/-- One tick of the streaming loop (app.py lines 244–263): analyze the
batch, increment the counter, append the entry, and when the history
exceeds 50 entries evict the oldest (`pop(0)`). -/
def streamTick (s : StreamState) (input : Table × Bool) : StreamState :=
  let analysis := scanBatch input.1 input.2
  let bc := s.batchCount + 1
  let hist := s.history ++
    [⟨bc, analysis.healthScore, analysis.driftScore, analysis.anomalyCount⟩]
  ⟨if hist.length > 50 then hist.tail else hist, bc⟩

/-- The start-button handler resets history and counter (app.py lines
219–222). -/
def streamStart : StreamState := ⟨[], 0⟩

/-- `n` ticks of the streaming loop from a fresh start, fed by the batch
source `f` (tick `i` consumes `f i`). -/
def runStream (f : ℕ → Table × Bool) : ℕ → StreamState
  | 0 => streamStart
  | n + 1 => streamTick (runStream f n) (f n)

/-! ## Helper lemmas about the healing log -/

lemma name_inj {t : Table} (hnd : (t.cols.map Column.name).Nodup)
    {a b : Column} (ha : a ∈ t.cols) (hb : b ∈ t.cols)
    (h : a.name = b.name) : a = b :=
  List.inj_on_of_nodup_map hnd ha hb h

/-- A column's name is in `columns_dropped` iff its null percentage
exceeds 50 (distinct column names). -/
lemma heal_mem_dropped_iff (t : Table)
    (hnd : (t.cols.map Column.name).Nodup)
    {c : Column} (hc : c ∈ t.cols) :
    c.name ∈ (healData t).2.columnsDropped ↔ 50 < nullPct t.nrows c := by
  simp only [healData, List.mem_map, List.mem_filter, decide_eq_true_eq]
  constructor
  · rintro ⟨c', ⟨hc', hp⟩, hname⟩
    cases name_inj hnd hc' hc hname
    exact hp
  · intro h
    exact ⟨c, ⟨hc, h⟩, rfl⟩

/-- A column's name is in `columns_imputed` iff its null percentage is in
(0, 5) and the column is numeric (distinct column names). -/
lemma heal_mem_imputed_iff (t : Table)
    (hnd : (t.cols.map Column.name).Nodup)
    {c : Column} (hc : c ∈ t.cols) :
    c.name ∈ (healData t).2.columnsImputed.map ImputeEntry.column ↔
      (0 < nullPct t.nrows c ∧ nullPct t.nrows c < 5 ∧
        c.data.isNumeric = true) := by
  simp only [healData, List.mem_map, List.mem_filterMap, List.mem_filter,
    decide_eq_true_eq]
  constructor
  · rintro ⟨e, ⟨c', ⟨hc', _⟩, he⟩, hname⟩
    by_cases hband : 0 < nullPct t.nrows c' ∧ nullPct t.nrows c' < 5 ∧
        c'.data.isNumeric = true
    · rw [if_pos hband] at he
      cases he
      cases name_inj hnd hc' hc hname
      exact hband
    · rw [if_neg hband] at he
      cases he
  · intro h
    refine ⟨⟨c.name, "median",
        median (match c.data with
          | .numeric cells => cells.filterMap id
          | .text _ => [])⟩, ⟨c, ⟨hc, ?_⟩, ?_⟩, rfl⟩
    · have : ¬ 50 < nullPct t.nrows c := by linarith [h.1, h.2.1]
      exact this
    · rw [if_pos h]

/-- A column's name is in `columns_flagged` iff its null percentage is in
[5, 50] (distinct column names). -/
lemma heal_mem_flagged_iff (t : Table)
    (hnd : (t.cols.map Column.name).Nodup)
    {c : Column} (hc : c ∈ t.cols) :
    c.name ∈ (healData t).2.columnsFlagged.map FlagEntry.column ↔
      (5 ≤ nullPct t.nrows c ∧ nullPct t.nrows c ≤ 50) := by
  simp only [healData, List.mem_map, List.mem_filterMap]
  constructor
  · rintro ⟨e, ⟨c', hc', he⟩, hname⟩
    by_cases hband : 5 ≤ nullPct t.nrows c' ∧ nullPct t.nrows c' ≤ 50
    · rw [if_pos hband] at he
      cases he
      cases name_inj hnd hc' hc hname
      exact hband
    · rw [if_neg hband] at he
      cases he
  · intro h
    exact ⟨⟨c.name, nullPct t.nrows c⟩, ⟨c, hc, by rw [if_pos h]⟩, rfl⟩

lemma nullCount_fillMedian (c : Column) (h : c.data.isNumeric = true) :
    c.fillMedian.data.nullCount = 0 := by
  cases c with
  | mk name data =>
    cases data with
    | numeric cells => simp [Column.fillMedian, ColData.nullCount]
    | text cells => simp [ColData.isNumeric] at h

lemma nullPct_eq_zero_of_nullCount {n : ℕ} {c : Column}
    (h : c.data.nullCount = 0) : nullPct n c = 0 := by
  rw [nullPct, h]
  norm_num

lemma fillMedian_isNumeric (c : Column) :
    c.fillMedian.data.isNumeric = c.data.isNumeric := by
  cases c with
  | mk name data => cases data <;> rfl

/-- Columns of the healed table are never in the drop band nor in the
impute band: imputed columns come out with zero nulls, and every other
kept column is unchanged with percentage at most 50 and outside the
numeric (0, 5) band. -/
lemma heal_output_no_band (t : Table) :
    ∀ c' ∈ (healData t).1.cols,
      ¬ 50 < nullPct (healData t).1.nrows c' ∧
      ¬ (0 < nullPct (healData t).1.nrows c' ∧
          nullPct (healData t).1.nrows c' < 5 ∧
          c'.data.isNumeric = true) := by
  intro c' hc'
  have hn : (healData t).1.nrows = t.nrows := rfl
  rw [hn]
  simp only [healData, List.mem_map, List.mem_filter,
    decide_eq_true_eq] at hc'
  obtain ⟨c, ⟨hc, hle⟩, rfl⟩ := hc'
  by_cases hband : 0 < nullPct t.nrows c ∧ nullPct t.nrows c < 5 ∧
      c.data.isNumeric = true
  · rw [if_pos hband]
    have h0 : nullPct t.nrows c.fillMedian = 0 :=
      nullPct_eq_zero_of_nullCount (nullCount_fillMedian c hband.2.2)
    rw [h0]
    norm_num
  · rw [if_neg hband]
    exact ⟨hle, hband⟩

/-- If no column of `u` is in the drop band, the healing log drops
nothing. -/
lemma heal_dropped_nil (u : Table)
    (h : ∀ c ∈ u.cols, ¬ 50 < nullPct u.nrows c) :
    (healData u).2.columnsDropped = [] := by
  simp only [healData, List.map_eq_nil_iff, List.filter_eq_nil_iff,
    decide_eq_true_eq]
  exact h

/-- If no column of `u` is in the numeric impute band, the healing log
imputes nothing. -/
lemma heal_imputed_nil (u : Table)
    (h : ∀ c ∈ u.cols, ¬ (0 < nullPct u.nrows c ∧ nullPct u.nrows c < 5 ∧
        c.data.isNumeric = true)) :
    (healData u).2.columnsImputed = [] := by
  simp only [healData, List.filterMap_eq_nil_iff]
  intro c hc
  rw [if_neg (h c (List.mem_of_mem_filter hc))]

/-! ## Claim C1 -/

/-- **C1, counterexample.**  The claim says a column at exactly 50% nulls
is dropped, not flagged.  On the concrete table with one numeric column
`"a"` holding `[1, null]` (50% nulls), `heal_data` drops nothing and
flags `"a"`: the 50% boundary belongs to the flag band (engine.py lines
199 and 225–227, `> 50` vs `<= 50`). -/
theorem C1_counterexample :
    let t : Table := ⟨2, [⟨"a", .numeric [some 1, none]⟩]⟩
    nullPct t.nrows ⟨"a", .numeric [some 1, none]⟩ = 50 ∧
    (healData t).2.columnsDropped = [] ∧
    (healData t).2.columnsFlagged.map FlagEntry.column = ["a"] := by
  refine ⟨by norm_num [nullPct, ColData.nullCount], ?_, ?_⟩ <;>
    norm_num [healData, nullPct, ColData.nullCount, List.filter,
      List.filterMap]

/-- **C1, amended.**  In `heal_data`, over tables with distinct column
names: a column at exactly 50% nulls is flagged, not dropped; a column at
exactly 5% is flagged, not imputed; a column at exactly 0% appears in
none of the three healing-log lists. -/
theorem C1_boundary_exactness (t : Table)
    (hnd : (t.cols.map Column.name).Nodup)
    {c : Column} (hc : c ∈ t.cols) :
    (nullPct t.nrows c = 50 →
      c.name ∈ (healData t).2.columnsFlagged.map FlagEntry.column ∧
      c.name ∉ (healData t).2.columnsDropped) ∧
    (nullPct t.nrows c = 5 →
      c.name ∈ (healData t).2.columnsFlagged.map FlagEntry.column ∧
      c.name ∉ (healData t).2.columnsImputed.map ImputeEntry.column) ∧
    (nullPct t.nrows c = 0 →
      c.name ∉ (healData t).2.columnsDropped ∧
      c.name ∉ (healData t).2.columnsImputed.map ImputeEntry.column ∧
      c.name ∉ (healData t).2.columnsFlagged.map FlagEntry.column) := by
  refine ⟨fun h50 => ⟨?_, ?_⟩, fun h5 => ⟨?_, ?_⟩, fun h0 => ⟨?_, ?_, ?_⟩⟩
  · exact (heal_mem_flagged_iff t hnd hc).mpr (by rw [h50]; norm_num)
  · rw [heal_mem_dropped_iff t hnd hc, h50]; norm_num
  · exact (heal_mem_flagged_iff t hnd hc).mpr (by rw [h5]; norm_num)
  · rw [heal_mem_imputed_iff t hnd hc, h5]
    rintro ⟨-, h, -⟩
    norm_num at h
  · rw [heal_mem_dropped_iff t hnd hc, h0]; norm_num
  · rw [heal_mem_imputed_iff t hnd hc, h0]
    rintro ⟨h, -, -⟩
    norm_num at h
  · rw [heal_mem_flagged_iff t hnd hc, h0]
    rintro ⟨h, -⟩
    norm_num at h

/-- **C1, witness.**  The amended boundary behaviour at a concrete table:
three numeric columns at exactly 50%, 5% and 0% nulls. -/
theorem C1_boundary_exactness_witness :
    let t : Table := ⟨20,
      [⟨"a", .numeric (List.replicate 10 (some 1) ++ List.replicate 10 none)⟩,
       ⟨"c", .numeric (List.replicate 19 (some 3) ++ [none])⟩,
       ⟨"d", .numeric (List.replicate 20 (some 7))⟩]⟩
    (t.cols.map Column.name).Nodup ∧
    ("a" ∈ (healData t).2.columnsFlagged.map FlagEntry.column ∧
      "a" ∉ (healData t).2.columnsDropped) ∧
    ("c" ∈ (healData t).2.columnsFlagged.map FlagEntry.column ∧
      "c" ∉ (healData t).2.columnsImputed.map ImputeEntry.column) ∧
    ("d" ∉ (healData t).2.columnsDropped ∧
      "d" ∉ (healData t).2.columnsImputed.map ImputeEntry.column ∧
      "d" ∉ (healData t).2.columnsFlagged.map FlagEntry.column) := by
  intro t
  have hnd : (t.cols.map Column.name).Nodup := by decide
  have ha : (⟨"a", .numeric (List.replicate 10 (some 1) ++
      List.replicate 10 none)⟩ : Column) ∈ t.cols := by decide
  have hc : (⟨"c", .numeric (List.replicate 19 (some 3) ++ [none])⟩ :
      Column) ∈ t.cols := by decide
  have hd : (⟨"d", .numeric (List.replicate 20 (some 7))⟩ : Column) ∈
      t.cols := by decide
  refine ⟨hnd,
    (C1_boundary_exactness t hnd ha).1
      (by norm_num [nullPct, ColData.nullCount, List.replicate,
        List.countP, List.countP.go]),
    (C1_boundary_exactness t hnd hc).2.1
      (by norm_num [nullPct, ColData.nullCount, List.replicate,
        List.countP, List.countP.go]),
    (C1_boundary_exactness t hnd hd).2.2
      (by norm_num [nullPct, ColData.nullCount, List.replicate,
        List.countP, List.countP.go])⟩



/-! ## Claim C2 -/

/-- **C2, counterexample.**  The claim says the second healing pass has
all three log lists empty.  On the table with one numeric column `"a"`
at 20% nulls, the first pass only flags (no mutation), so the second
pass flags `"a"` again: `columns_flagged` is not empty. -/
theorem C2_counterexample :
    let t : Table := ⟨5, [⟨"a", .numeric [some 1, some 1, some 1,
      some 1, none]⟩]⟩
    (healData (healData t).1).2.columnsFlagged.map FlagEntry.column =
      ["a"] := by
  norm_num [healData, nullPct, ColData.nullCount, ColData.isNumeric,
    List.filter, List.filterMap, Column.fillMedian]

/-- **C2, amended.**  The Healing Engine is idempotent for the two
mutating strategies: re-running `heal_data` on its own output produces a
log with empty `columns_dropped` and empty `columns_imputed`; flagging
does not mutate, so columns in the [5, 50] band are flagged again on the
second pass. -/
theorem C2_idempotent_drop_impute (t : Table) :
    (healData (healData t).1).2.columnsDropped = [] ∧
    (healData (healData t).1).2.columnsImputed = [] :=
  ⟨heal_dropped_nil _ fun c hc => (heal_output_no_band t c hc).1,
   heal_imputed_nil _ fun c hc => (heal_output_no_band t c hc).2⟩

/-! ## Claim C4 -/

/-- **C4.**  The drift score of `scan_for_drift` equals the number of
columns containing at least one missing value divided by the total
number of columns, is 0 when the table has zero columns, always lies in
[0, 1], and is 0 exactly when no column has a null. -/
theorem C4_drift_score (t : Table) :
    (t.cols.length ≠ 0 →
      (scanForDrift t).driftScore =
        (t.cols.countP Column.hasNull : ℚ) / (t.cols.length : ℚ)) ∧
    (t.cols.length = 0 → (scanForDrift t).driftScore = 0) ∧
    0 ≤ (scanForDrift t).driftScore ∧
    (scanForDrift t).driftScore ≤ 1 ∧
    ((scanForDrift t).driftScore = 0 ↔
      ∀ c ∈ t.cols, c.data.nullCount = 0) := by
  have hds : (scanForDrift t).driftScore = driftScore t := rfl
  by_cases hlen : t.cols.length = 0
  · have hnil : t.cols = [] := List.length_eq_zero.mp hlen
    rw [hds, driftScore, hnil]
    norm_num
  · have hpos : 0 < t.cols.length := Nat.pos_of_ne_zero hlen
    have hq : (0 : ℚ) < (t.cols.length : ℚ) := by exact_mod_cast hpos
    have hval : driftScore t =
        (t.cols.countP Column.hasNull : ℚ) / (t.cols.length : ℚ) := by
      rw [driftScore, if_pos hpos]
    refine ⟨fun _ => by rw [hds, hval], fun h => absurd h hlen, ?_, ?_, ?_⟩
    · rw [hds, hval]
      positivity
    · rw [hds, hval]
      rw [div_le_one hq]
      exact_mod_cast List.countP_le_length Column.hasNull
    · rw [hds, hval]
      rw [div_eq_zero_iff]
      constructor
      · rintro (h | h)
        · have h0 : t.cols.countP Column.hasNull = 0 := by exact_mod_cast h
          intro c hc
          have := List.countP_eq_zero.mp h0 c hc
          simpa [Column.hasNull] using this
        · exact absurd h (ne_of_gt hq)
      · intro h
        left
        have h0 : t.cols.countP Column.hasNull = 0 :=
          List.countP_eq_zero.mpr fun c hc => by
            simp [Column.hasNull, h c hc]
        exact_mod_cast h0

/-- **C4, witness.**  Concrete instance: two columns, one with a null,
drift score 1/2, and non-zero because a column has a null. -/
theorem C4_drift_score_witness :
    let t : Table := ⟨2, [⟨"a", .numeric [some 1, none]⟩,
      ⟨"b", .numeric [some 1, some 2]⟩]⟩
    t.cols.length ≠ 0 ∧ (scanForDrift t).driftScore = 1/2 := by
  intro t
  refine ⟨by norm_num, ?_⟩
  rw [(C4_drift_score t).1 (by norm_num)]
  norm_num [Column.hasNull, ColData.nullCount, List.countP, List.countP.go]

/-! ## Claim C5 -/

/-- **C5.**  For every non-empty batch (the batch analysis of an empty
batch raises and is downgraded, see C7), the returned `health_score`
equals `1.0 - (drift_score + (anomaly_count / batch_size) * 0.5)`
clamped into [0, 1], in terms of the returned result's own fields. -/
theorem C5_health_score (t : Table) (hd : Bool) (h : 0 < t.nrows) :
    (scanBatch t hd).healthScore =
      max 0 (min 1 (1 - ((scanBatch t hd).driftScore +
        (((scanBatch t hd).anomalyCount : ℚ) /
          ((scanBatch t hd).batchSize : ℚ)) * (1/2)))) := by
  have hne : t.nrows ≠ 0 := Nat.pos_iff_ne_zero.mp h
  simp [scanBatch, scanBatchCore, hne]

/-- **C5, witness.**  Concrete non-empty batch. -/
theorem C5_health_score_witness :
    0 < (⟨2, [⟨"a", .numeric [some 1, none]⟩]⟩ : Table).nrows ∧
    (scanBatch ⟨2, [⟨"a", .numeric [some 1, none]⟩]⟩ false).healthScore =
      max 0 (min 1 (1 -
        ((scanBatch ⟨2, [⟨"a", .numeric [some 1, none]⟩]⟩
            false).driftScore +
          (((scanBatch ⟨2, [⟨"a", .numeric [some 1, none]⟩]⟩
              false).anomalyCount : ℚ) /
            ((scanBatch ⟨2, [⟨"a", .numeric [some 1, none]⟩]⟩
              false).batchSize : ℚ)) * (1/2)))) :=
  ⟨by norm_num, C5_health_score _ false (by norm_num)⟩

/-! ## Claim C6 -/

/-- **C6.**  The `alert` field of the result of `scan_batch` always
equals the alert rule applied to the result's own fields:
`has_drift_event or drift_score > 0.3 or health_score < 0.7` (on the
exception path all three disjuncts are false and `alert` is false); and
the rule fires at `drift_score = 0.4`, `has_drift_event = false`,
`health_score = 0.65` on the score threshold alone. -/
theorem C6_alert_rule (t : Table) (hd : Bool) :
    ((scanBatch t hd).alert = alertOf (scanBatch t hd).hasDriftEvent
      (scanBatch t hd).driftScore (scanBatch t hd).healthScore) ∧
    alertOf false (2/5) (13/20) = true := by
  refine ⟨?_, by norm_num [alertOf]⟩
  by_cases hne : t.nrows = 0
  · norm_num [scanBatch, scanBatchCore, hne, alertOf]
  · simp [scanBatch, scanBatchCore, hne, alertOf]

/-! ## Claim C7 -/

/-- **C7.**  When batch analysis raises (`scanBatchCore` returns an
error), `scan_batch` does not propagate it: it returns the neutral
result — `drift_score = 0`, `anomaly_count = 0`, `health_score = 1`,
`has_drift_event = false`, `alert = false` — with the message in the
`error` field. -/
theorem C7_error_neutral (t : Table) (hd : Bool) (e : String)
    (h : scanBatchCore t hd = .error e) :
    scanBatch t hd =
      { driftScore := 0, anomalyCount := 0, healthScore := 1,
        hasDriftEvent := false, batchSize := 0, missingValues := 0,
        alert := false, error := some e } := by
  simp [scanBatch, h]

/-- **C7, witness.**  The empty batch raises the `ZeroDivisionError` of
`anomaly_count / len(batch_df)` and is downgraded to the neutral
result. -/
theorem C7_error_neutral_witness :
    scanBatchCore ⟨0, []⟩ false = .error "division by zero" ∧
    scanBatch ⟨0, []⟩ false =
      { driftScore := 0, anomalyCount := 0, healthScore := 1,
        hasDriftEvent := false, batchSize := 0, missingValues := 0,
        alert := false, error := some "division by zero" } :=
  ⟨rfl, C7_error_neutral ⟨0, []⟩ false "division by zero" rfl⟩

/-! ## Claim C3 -/

lemma nullCount_le_length (d : ColData) : d.nullCount ≤ d.length := by
  cases d <;> exact List.countP_le_length _

/-- **C3, counterexample.**  The claim says the three healing-log lists
cover every column with at least one null.  The table with one text
column `"b"` holding one null out of 21 rows (≈ 4.76% nulls) has a
column with a null, yet all three lists are empty: a non-numeric column
in the (0, 5) band passes through unlogged (engine.py line 214 guards
imputation by `is_numeric_dtype`, and 4.76 < 5 keeps it out of the flag
band). -/
theorem C3_counterexample :
    let t : Table := ⟨21, [⟨"b", .text (List.replicate 20 (some "x") ++
      [none])⟩]⟩
    (∃ c ∈ t.cols, 0 < c.data.nullCount) ∧
    (healData t).2.columnsDropped = [] ∧
    (healData t).2.columnsImputed = [] ∧
    (healData t).2.columnsFlagged = [] := by
  refine ⟨by decide, ?_, ?_, ?_⟩ <;>
    norm_num [healData, nullPct, ColData.nullCount, ColData.isNumeric,
      List.filter, List.filterMap, List.replicate, List.countP,
      List.countP.go]

/-- **C3, amended.**  Over tables with distinct column names and
equal-length columns, every column with at least one null appears in
exactly one of the three healing-log lists, except a non-numeric column
with null percentage in (0, 5), which appears in none of them. -/
theorem C3_partition (t : Table) (hwf : t.WF)
    (hnd : (t.cols.map Column.name).Nodup)
    {c : Column} (hc : c ∈ t.cols) (hnull : 0 < c.data.nullCount) :
    ((c.data.isNumeric = false ∧ nullPct t.nrows c < 5) →
      c.name ∉ (healData t).2.columnsDropped ∧
      c.name ∉ (healData t).2.columnsImputed.map ImputeEntry.column ∧
      c.name ∉ (healData t).2.columnsFlagged.map FlagEntry.column) ∧
    (¬(c.data.isNumeric = false ∧ nullPct t.nrows c < 5) →
      (c.name ∈ (healData t).2.columnsDropped ∧
        c.name ∉ (healData t).2.columnsImputed.map ImputeEntry.column ∧
        c.name ∉ (healData t).2.columnsFlagged.map FlagEntry.column) ∨
      (c.name ∉ (healData t).2.columnsDropped ∧
        c.name ∈ (healData t).2.columnsImputed.map ImputeEntry.column ∧
        c.name ∉ (healData t).2.columnsFlagged.map FlagEntry.column) ∨
      (c.name ∉ (healData t).2.columnsDropped ∧
        c.name ∉ (healData t).2.columnsImputed.map ImputeEntry.column ∧
        c.name ∈ (healData t).2.columnsFlagged.map FlagEntry.column)) := by
  have hlen : c.data.length = t.nrows := hwf c hc
  have hrows : 0 < t.nrows := by
    calc 0 < c.data.nullCount := hnull
    _ ≤ c.data.length := nullCount_le_length c.data
    _ = t.nrows := hlen
  have hpct : 0 < nullPct t.nrows c := by
    rw [nullPct]
    have h1 : (0 : ℚ) < (c.data.nullCount : ℚ) := by exact_mod_cast hnull
    have h2 : (0 : ℚ) < (t.nrows : ℚ) := by exact_mod_cast hrows
    positivity
  rw [heal_mem_dropped_iff t hnd hc, heal_mem_imputed_iff t hnd hc,
    heal_mem_flagged_iff t hnd hc]
  constructor
  · rintro ⟨hnum, hlt5⟩
    refine ⟨by linarith, ?_, ?_⟩
    · rintro ⟨-, -, hnum'⟩
      rw [hnum] at hnum'
      exact Bool.false_ne_true hnum'
    · rintro ⟨hge5, -⟩
      linarith
  · intro hnot
    by_cases h50 : 50 < nullPct t.nrows c
    · refine Or.inl ⟨h50, ?_, ?_⟩
      · rintro ⟨-, hlt5, -⟩
        linarith
      · rintro ⟨-, hle50⟩
        linarith
    · by_cases h5 : 5 ≤ nullPct t.nrows c
      · refine Or.inr (Or.inr ⟨h50, ?_, h5, le_of_not_lt h50⟩)
        rintro ⟨-, hlt5, -⟩
        linarith
      · have hlt5 : nullPct t.nrows c < 5 := lt_of_not_le h5
        have hnum : c.data.isNumeric = true := by
          cases hb : c.data.isNumeric with
          | false => exact absurd ⟨hb, hlt5⟩ hnot
          | true => rfl
        refine Or.inr (Or.inl ⟨by linarith, ⟨hpct, hlt5, hnum⟩, ?_⟩)
        rintro ⟨hge5, -⟩
        linarith

/-- **C3, witness.**  Concrete instance: one numeric column at 20% nulls
falls in exactly one list (the flag list). -/
theorem C3_partition_witness :
    let t : Table := ⟨5, [⟨"a", .numeric [some 1, some 1, some 1,
      some 1, none]⟩]⟩
    let c : Column := ⟨"a", .numeric [some 1, some 1, some 1,
      some 1, none]⟩
    t.WF ∧ (t.cols.map Column.name).Nodup ∧ c ∈ t.cols ∧
    0 < c.data.nullCount ∧
    ((c.name ∈ (healData t).2.columnsDropped ∧
        c.name ∉ (healData t).2.columnsImputed.map ImputeEntry.column ∧
        c.name ∉ (healData t).2.columnsFlagged.map FlagEntry.column) ∨
      (c.name ∉ (healData t).2.columnsDropped ∧
        c.name ∈ (healData t).2.columnsImputed.map ImputeEntry.column ∧
        c.name ∉ (healData t).2.columnsFlagged.map FlagEntry.column) ∨
      (c.name ∉ (healData t).2.columnsDropped ∧
        c.name ∉ (healData t).2.columnsImputed.map ImputeEntry.column ∧
        c.name ∈ (healData t).2.columnsFlagged.map FlagEntry.column)) := by
  refine ⟨by decide, by decide, by decide, by decide, ?_⟩
  exact (C3_partition _ (by decide) (by decide) (by decide)
    (by decide)).2 (by rintro ⟨h, -⟩; exact absurd h (by decide))

/-! ## Claim C8 -/

lemma colAnomalies_of_var_zero (n : ℕ) (cells : List (Option ℚ))
    (h : sampleVar (cells.filterMap id) = 0) :
    colAnomalies n cells = 0 := by
  simp [colAnomalies, h]

/-- **C8.**  In the anomaly detection of `scan_batch`: a numeric column
with zero variance (standard deviation 0) contributes exactly 0 to
`anomaly_count` for every batch size; a text column contributes 0;
a column with at most 1 row contributes 0; and for a column with more
than 1 row and positive variance the contribution is the number of
non-null cells whose z-score exceeds 3 (over the rationals,
`|v − mean| / std > 3` iff `(v − mean)² > 9 · variance`). -/
theorem C8_anomaly_detection :
    (∀ (n : ℕ) (pre post : List Column) (nm : String)
        (cells : List (Option ℚ)),
      sampleVar (cells.filterMap id) = 0 →
      anomalyCount ⟨n, pre ++ ⟨nm, .numeric cells⟩ :: post⟩ =
        anomalyCount ⟨n, pre ++ post⟩) ∧
    (∀ (n : ℕ) (pre post : List Column) (nm : String)
        (cells : List (Option String)),
      anomalyCount ⟨n, pre ++ ⟨nm, .text cells⟩ :: post⟩ =
        anomalyCount ⟨n, pre ++ post⟩) ∧
    (∀ (n : ℕ) (cells : List (Option ℚ)), n ≤ 1 →
      colAnomalies n cells = 0) ∧
    (∀ (n : ℕ) (cells : List (Option ℚ)), 1 < n →
      0 < sampleVar (cells.filterMap id) →
      colAnomalies n cells =
        (cells.filterMap id).countP fun v =>
          (v - listMean (cells.filterMap id)) ^ 2 >
            9 * sampleVar (cells.filterMap id)) := by
  refine ⟨?_, ?_, ?_, ?_⟩
  · intro n pre post nm cells h
    simp [anomalyCount, colAnomalies_of_var_zero n cells h]
  · intro n pre post nm cells
    simp [anomalyCount]
  · intro n cells h
    have hn : ¬ n > 1 := by omega
    simp [colAnomalies, hn]
  · intro n cells h1 h2
    simp [colAnomalies, h1, h2]

/-- **C8, witness.**  Concrete instances of all four parts: a constant
column contributes 0; a text column contributes 0; a single-row column
contributes 0; a spread-out column is counted by the squared z-score
rule. -/
theorem C8_anomaly_detection_witness :
    (sampleVar (([some 5, some 5, some 5] :
        List (Option ℚ)).filterMap id) = 0 ∧
      anomalyCount ⟨3, [⟨"x", .numeric [some 5, some 5, some 5]⟩]⟩ =
        anomalyCount ⟨3, []⟩) ∧
    (anomalyCount ⟨3, [⟨"s", .text [some "a", some "b", some "c"]⟩]⟩ =
      anomalyCount ⟨3, []⟩) ∧
    ((1 : ℕ) ≤ 1 ∧ colAnomalies 1 [some (1 : ℚ)] = 0) ∧
    ((1 : ℕ) < 2 ∧
      0 < sampleVar (([some 0, some 10] :
        List (Option ℚ)).filterMap id) ∧
      colAnomalies 2 [some (0 : ℚ), some 10] =
        (([some 0, some 10] : List (Option ℚ)).filterMap id).countP
          fun v => (v - listMean (([some 0, some 10] :
            List (Option ℚ)).filterMap id)) ^ 2 >
              9 * sampleVar (([some 0, some 10] :
                List (Option ℚ)).filterMap id)) := by
  have hvar0 : sampleVar (([some 5, some 5, some 5] :
      List (Option ℚ)).filterMap id) = 0 := by
    norm_num [sampleVar, listMean, List.filterMap]
  have hvar2 : 0 < sampleVar (([some 0, some 10] :
      List (Option ℚ)).filterMap id) := by
    norm_num [sampleVar, listMean, List.filterMap]
  exact ⟨⟨hvar0, C8_anomaly_detection.1 3 [] [] "x" _ hvar0⟩,
    C8_anomaly_detection.2.1 3 [] [] "s" _,
    ⟨le_refl 1, C8_anomaly_detection.2.2.1 1 _ (le_refl 1)⟩,
    ⟨by norm_num, hvar2,
      C8_anomaly_detection.2.2.2 2 _ (by norm_num) hvar2⟩⟩

/-! ## Claim C9 -/

/-- After `n` ticks from a fresh start the batch counter is `n` and the
history holds the entries for the last `min n 50` batches in FIFO
order: the batch numbers are `[1, …, n]` with the first `n − 50`
(the oldest) evicted. -/
lemma runStream_spec (f : ℕ → Table × Bool) (n : ℕ) :
    ((runStream f n).history.map StreamEntry.batchNum =
      (List.range' 1 n).drop (n - 50)) ∧
    (runStream f n).batchCount = n := by
  induction n with
  | zero => simp [runStream, streamStart]
  | succ n ih =>
    obtain ⟨ih1, ih2⟩ := ih
    have hlen : (runStream f n).history.length = n - (n - 50) := by
      have hh := congrArg List.length ih1
      simpa [List.length_range'] using hh
    refine ⟨?_, by simp [runStream, streamTick, ih2]⟩
    show (streamTick (runStream f n) (f n)).history.map _ = _
    rw [streamTick]
    set a := scanBatch (f n).1 (f n).2 with ha
    by_cases hc : 50 ≤ n
    · have hgt : ((runStream f n).history ++
          [(⟨(runStream f n).batchCount + 1, a.healthScore, a.driftScore,
            a.anomalyCount⟩ : StreamEntry)]).length > 50 := by
        simp [hlen]
        omega
      rw [if_pos hgt]
      dsimp only
      rw [List.map_tail, List.map_append, ih1, ih2]
      have h1 : (List.range' 1 n).drop (n - 50) ++
          List.map StreamEntry.batchNum
            [(⟨n + 1, a.healthScore, a.driftScore, a.anomalyCount⟩ :
              StreamEntry)] =
          (List.range' 1 n ++ [n + 1]).drop (n - 50) := by
        rw [List.drop_append_eq_append_drop]
        have h0 : n - 50 - (List.range' 1 n).length = 0 := by
          simp [List.length_range']
        rw [h0, List.drop_zero]
        rfl
      rw [h1, List.tail_drop]
      have h2 : List.range' 1 n ++ [n + 1] = List.range' 1 (n + 1) := by
        rw [List.range'_concat]
        norm_num [Nat.add_comm]
      rw [h2]
      congr 1
      omega
    · have hle : ¬ ((runStream f n).history ++
          [(⟨(runStream f n).batchCount + 1, a.healthScore, a.driftScore,
            a.anomalyCount⟩ : StreamEntry)]).length > 50 := by
        simp [hlen]
        omega
      rw [if_neg hle]
      dsimp only
      rw [List.map_append, ih1, ih2]
      have h0 : n - 50 = 0 := by omega
      have h0' : n + 1 - 50 = 0 := by omega
      rw [h0, h0', List.drop_zero, List.drop_zero]
      have h2 : List.range' 1 n ++ [n + 1] = List.range' 1 (n + 1) := by
        rw [List.range'_concat]
        norm_num [Nat.add_comm]
      rw [← h2]
      rfl

/-- **C9.**  For every batch source and tick count, the stream history
holds at most 50 entries at every tick boundary, eviction is FIFO (the
history holds exactly the batch numbers `[1, …, n]` minus the oldest
`n − 50`), and after 51 ticks the entry for batch number 1 is absent
while the entry for batch number 51 is present. -/
theorem C9_stream_history (f : ℕ → Table × Bool) (n : ℕ) :
    (runStream f n).history.length ≤ 50 ∧
    ((runStream f n).history.map StreamEntry.batchNum =
      (List.range' 1 n).drop (n - 50)) ∧
    (∀ e ∈ (runStream f 51).history, e.batchNum ≠ 1) ∧
    (∃ e ∈ (runStream f 51).history, e.batchNum = 51) := by
  have h := runStream_spec f n
  have h51 := runStream_spec f 51
  refine ⟨?_, h.1, ?_, ?_⟩
  · have hh := congrArg List.length h.1
    simp only [List.length_map, List.length_drop,
      List.length_range'] at hh
    omega
  · intro e he h1
    have hm : e.batchNum ∈
        (runStream f 51).history.map StreamEntry.batchNum :=
      List.mem_map_of_mem _ he
    rw [h51.1, h1] at hm
    have : (1 : ℕ) ∉ (List.range' 1 51).drop (51 - 50) := by decide
    exact this hm
  · have hm : (51 : ℕ) ∈
        (runStream f 51).history.map StreamEntry.batchNum := by
      rw [h51.1]
      decide
    obtain ⟨e, he, heq⟩ := List.mem_map.mp hm
    exact ⟨e, he, heq⟩

/-! ## Claim C10 -/

lemma nullCount_eq_mask_count (d : ColData) :
    d.nullCount = d.nullMask.count true := by
  cases d <;>
    · rw [ColData.nullCount, ColData.nullMask, List.count_eq_countP,
        List.countP_map]
      apply List.countP_congr
      intro x _
      simp

/-- The drift score only reads the number of columns and each column's
null mask. -/
lemma driftScore_congr (t₁ t₂ : Table)
    (hlen : t₁.cols.length = t₂.cols.length)
    (hmask : t₁.cols.map (fun c => c.data.nullMask) =
      t₂.cols.map (fun c => c.data.nullMask)) :
    driftScore t₁ = driftScore t₂ := by
  have e : ∀ (l : List Column), l.countP Column.hasNull =
      (l.map fun c => c.data.nullMask).countP
        fun m => decide (0 < m.count true) := by
    intro l
    rw [List.countP_map]
    apply List.countP_congr
    intro c _
    simp [Function.comp, Column.hasNull, nullCount_eq_mask_count]
  have hcount : t₁.cols.countP Column.hasNull =
      t₂.cols.countP Column.hasNull := by
    rw [e, e, hmask]
  rw [driftScore, driftScore]
  rw [hcount, hlen]

/-- **C10.**  The drift score is a function of the missingness pattern
alone: two tables with the same row count, the same column names and the
same per-column null masks get the same `drift_score` from both
`scan_for_drift` and `scan_batch`, regardless of the values stored in
the non-null cells. -/
theorem C10_drift_noninterference (t₁ t₂ : Table) (hd : Bool)
    (hrows : t₁.nrows = t₂.nrows)
    (hnames : t₁.cols.map Column.name = t₂.cols.map Column.name)
    (hmask : t₁.cols.map (fun c => c.data.nullMask) =
      t₂.cols.map (fun c => c.data.nullMask)) :
    (scanForDrift t₁).driftScore = (scanForDrift t₂).driftScore ∧
    (scanBatch t₁ hd).driftScore = (scanBatch t₂ hd).driftScore := by
  have hlen : t₁.cols.length = t₂.cols.length := by
    have hh := congrArg List.length hnames
    simpa using hh
  have hds : driftScore t₁ = driftScore t₂ :=
    driftScore_congr t₁ t₂ hlen hmask
  refine ⟨hds, ?_⟩
  by_cases h0 : t₁.nrows = 0
  · have h0' : t₂.nrows = 0 := hrows ▸ h0
    simp [scanBatch, scanBatchCore, h0, h0']
  · have h0' : ¬ t₂.nrows = 0 := hrows ▸ h0
    simp [scanBatch, scanBatchCore, h0, h0', hds]

/-- **C10, witness.**  Two concrete tables with the same names and null
masks but different cell values and even a different dtype in column
`"a"`: both drift scores agree. -/
theorem C10_drift_noninterference_witness :
    let t₁ : Table := ⟨2, [⟨"a", .numeric [some 1, none]⟩,
      ⟨"b", .numeric [some 7, some 8]⟩]⟩
    let t₂ : Table := ⟨2, [⟨"a", .text [some "x", none]⟩,
      ⟨"b", .numeric [some 100, some 200]⟩]⟩
    t₁.nrows = t₂.nrows ∧
    t₁.cols.map Column.name = t₂.cols.map Column.name ∧
    t₁.cols.map (fun c => c.data.nullMask) =
      t₂.cols.map (fun c => c.data.nullMask) ∧
    (scanForDrift t₁).driftScore = (scanForDrift t₂).driftScore ∧
    (scanBatch t₁ false).driftScore =
      (scanBatch t₂ false).driftScore := by
  intro t₁ t₂
  have h := C10_drift_noninterference t₁ t₂ false rfl (by decide)
    (by decide)
  exact ⟨rfl, by decide, by decide, h.1, h.2⟩
